import Mathlib

/-
Verification of the job-agent browser extension (distributed lock, network-idle
detector, job executor, scheduler loop and tiled screenshot capture).

Each definition below is a shallow embedding of a function of the source:
  * namespace StateLock        — src/stateLock.js
  * namespace AcquireRace      — src/stateLock.js acquireLock, as an interleaved
                                 small-step machine (two concurrent callers)
  * namespace NetworkIdle      — src/networkRequestTracker.js
  * namespace Scheduler        — pollServer (background script, version with the
                                 inner try/catch around processUrl)
  * namespace Executor         — processUrl (background script, version with the
                                 8-minute Promise.race deadline)
  * namespace Capture          — content-script captureAndScroll (version that
                                 computes isLastCapture before capturing)
  * namespace Stitch           — backgroundScreenshotHandler captureFullPage

Machine integers do not overflow in any of this code (timestamps and sizes stay
far below 2^53), so timestamps and counters are modelled as Nat.  JavaScript
age computations of the form (now - timestamp) < timeout compare a possibly
negative number against a positive timeout; natural subtraction truncates a
negative age to 0, which agrees with the JavaScript comparison whenever
timeout > 0, and where a claim depends on it the hypotheses pin down the order
of the two times.
-/

namespace StateLock

/-- A lock record as kept both in the in-process memory map and in the durable
chrome.storage.local store: `id` is the opaque token (a Date.now()-Math.random()
string in the source, abstracted to a Nat) and `timestamp` the acquisition time
in milliseconds. -/
structure LockRec where
  id : Nat
  timestamp : Nat
deriving Repr, DecidableEq

/-- The two tiers of lock storage for one fixed resource: `mem` is the entry of
this.memoryLocks for the resource, `stor` the record stored under the
lock_ key of that resource in chrome.storage.local. -/
structure LockSys where
  mem : Option LockRec
  stor : Option LockRec
deriving Repr, DecidableEq

/-- Second half of acquireLock (stateLock.js lines 53-104): set the memory
lock, then check the storage lock; a non-stale storage record blocks the
acquisition and rolls the memory entry back, otherwise a fresh record is
written to storage and the new token returned. -/
def acquireLockStorage (s : LockSys) (now newId timeout : Nat) :
    LockSys × Option Nat :=
  let s1 : LockSys := { s with mem := some { id := newId, timestamp := now } }
  match s1.stor with
  | some lockData =>
    if now - lockData.timestamp < timeout then
      ({ s1 with mem := none }, none)
    else
      ({ s1 with stor := some { id := newId, timestamp := now } }, some newId)
  | none => ({ s1 with stor := some { id := newId, timestamp := now } }, some newId)

/-- acquireLock (stateLock.js lines 22-115), run without interleaving: the
memory fast path first (an existing entry younger than `timeout` blocks, a
stale one is deleted), then the storage phase.  The several Date.now() reads
of one call are collapsed to the single instant `now`; no claim below depends
on the sub-millisecond drift between them. -/
def acquireLock (s : LockSys) (now newId timeout : Nat) : LockSys × Option Nat :=
  match s.mem with
  | some existingLock =>
    if now - existingLock.timestamp < timeout then
      (s, none)
    else
      acquireLockStorage { s with mem := none } now newId timeout
  | none => acquireLockStorage s now newId timeout

/-- releaseLock (stateLock.js lines 118-161): the memory entry is removed only
when its id matches; the storage record is removed (returning true) only when
its id matches, otherwise false is returned and storage is not written. -/
def releaseLock (s : LockSys) (lockId : Nat) : LockSys × Bool :=
  let s1 : LockSys :=
    match s.mem with
    | some memoryLock => if memoryLock.id = lockId then { s with mem := none } else s
    | none => s
  match s1.stor with
  | some storageLock =>
    if storageLock.id = lockId then ({ s1 with stor := none }, true)
    else (s1, false)
  | none => (s1, false)

/-- withLock (stateLock.js lines 191-205): acquire, throw when acquisition
fails, otherwise run `fn` and release in a finally block, returning `fn`'s
outcome (ok or error) after the release.  The Bool records whether `fn` was
run. -/
def withLock {α : Type} (s : LockSys) (now newId timeout : Nat)
    (fn : Unit → Except String α) : LockSys × Except String α × Bool :=
  match acquireLock s now newId timeout with
  | (s1, none) =>
    (s1, Except.error "Failed to acquire lock for resource", false)
  | (s1, some lockId) =>
    let result := fn ()
    let s2 := (releaseLock s1 lockId).1
    (s2, result, true)

theorem acquireLockStorage_post (s : LockSys) (now newId timeout : Nat)
    (h : (acquireLockStorage s now newId timeout).2.isSome = true) :
    (acquireLockStorage s now newId timeout).2 = some newId ∧
      (acquireLockStorage s now newId timeout).1.mem
        = some { id := newId, timestamp := now } ∧
      (acquireLockStorage s now newId timeout).1.stor
        = some { id := newId, timestamp := now } := by
  unfold acquireLockStorage at *
  cases hs : s.stor with
  | none => simp [hs] at h ⊢
  | some lockData =>
    by_cases hage : now - lockData.timestamp < timeout
    · simp [hs, hage] at h
    · simp [hs, hage] at h ⊢

theorem acquireLock_post (s : LockSys) (now newId timeout : Nat)
    (h : (acquireLock s now newId timeout).2.isSome = true) :
    (acquireLock s now newId timeout).2 = some newId ∧
      (acquireLock s now newId timeout).1.mem
        = some { id := newId, timestamp := now } ∧
      (acquireLock s now newId timeout).1.stor
        = some { id := newId, timestamp := now } := by
  unfold acquireLock at *
  cases hm : s.mem with
  | none => exact acquireLockStorage_post _ _ _ _ (by simpa [hm] using h)
  | some existingLock =>
    by_cases hage : now - existingLock.timestamp < timeout
    · simp [hm, hage] at h
    · simp [hm, hage] at h ⊢
      exact acquireLockStorage_post _ _ _ _ h

theorem releaseLock_own (now newId : Nat) :
    releaseLock
      { mem := some { id := newId, timestamp := now },
        stor := some { id := newId, timestamp := now } } newId
      = ({ mem := none, stor := none }, true) := by
  simp [releaseLock]

end StateLock

/-- C6: for every resource and function fn, withLock releases the lock on
every exit path: when fn returns normally or throws, the lock (memory entry
and durable record) is released and fn's outcome — result or error — is
handed to the caller after the release; when acquisition fails, withLock
throws a lock-acquisition error without running fn. -/
theorem withLock_release_on_every_path {α : Type} (s : StateLock.LockSys)
    (now newId timeout : Nat) (fn : Unit → Except String α) :
    ((StateLock.acquireLock s now newId timeout).2.isSome = true →
      (StateLock.withLock s now newId timeout fn).2.1 = fn () ∧
      (StateLock.withLock s now newId timeout fn).1.mem = none ∧
      (StateLock.withLock s now newId timeout fn).1.stor = none ∧
      (StateLock.withLock s now newId timeout fn).2.2 = true) ∧
    ((StateLock.acquireLock s now newId timeout).2 = none →
      (StateLock.withLock s now newId timeout fn).2.1
        = Except.error "Failed to acquire lock for resource" ∧
      (StateLock.withLock s now newId timeout fn).2.2 = false) := by
  constructor
  · intro h
    obtain ⟨h1, h2, h3⟩ := StateLock.acquireLock_post s now newId timeout h
    have hpair : StateLock.acquireLock s now newId timeout
        = ((StateLock.acquireLock s now newId timeout).1, some newId) := by
      rw [← h1]
    have hst : (StateLock.acquireLock s now newId timeout).1
        = { mem := some { id := newId, timestamp := now },
            stor := some { id := newId, timestamp := now } } := by
      cases hx : (StateLock.acquireLock s now newId timeout).1
      rw [hx] at h2 h3
      simp at h2 h3
      simp [h2, h3]
    unfold StateLock.withLock
    rw [hpair, hst]
    simp [StateLock.releaseLock_own]
  · intro h
    have hpair : StateLock.acquireLock s now newId timeout
        = ((StateLock.acquireLock s now newId timeout).1, none) := by
      rw [← h]
    unfold StateLock.withLock
    rw [hpair]
    simp

/-- Witness for C6 at two concrete inputs: a throwing fn with a free lock
(release still happens, the error is propagated), and a blocked acquisition
(fn never runs). -/
theorem withLock_release_on_every_path_witness :
    ((StateLock.withLock (⟨none, none⟩ : StateLock.LockSys) 0 7 5000
        (fun _ => (Except.error "boom" : Except String Nat))).2.1
          = Except.error "boom"
      ∧ (StateLock.withLock (⟨none, none⟩ : StateLock.LockSys) 0 7 5000
        (fun _ => (Except.error "boom" : Except String Nat))).1.stor = none)
    ∧ (StateLock.withLock (⟨some ⟨1, 0⟩, none⟩ : StateLock.LockSys) 0 7 5000
        (fun _ => (Except.ok 3 : Except String Nat))).2.2 = false := by
  refine ⟨⟨?_, ?_⟩, ?_⟩
  · exact ((withLock_release_on_every_path (⟨none, none⟩ : StateLock.LockSys) 0 7 5000
      (fun _ => (Except.error "boom" : Except String Nat))).1 rfl).1
  · exact ((withLock_release_on_every_path (⟨none, none⟩ : StateLock.LockSys) 0 7 5000
      (fun _ => (Except.error "boom" : Except String Nat))).1 rfl).2.2.1
  · exact ((withLock_release_on_every_path (⟨some ⟨1, 0⟩, none⟩ : StateLock.LockSys) 0 7 5000
      (fun _ => (Except.ok 3 : Except String Nat))).2 rfl).2

/-- C7: when the durable store's lock record exists but its token differs
from the supplied token, releaseLock returns false and the durable record is
left unchanged. -/
theorem releaseLock_not_owner (s : StateLock.LockSys) (lockId : Nat)
    (r : StateLock.LockRec) (hstor : s.stor = some r) (hne : ¬ r.id = lockId) :
    (StateLock.releaseLock s lockId).2 = false ∧
      (StateLock.releaseLock s lockId).1.stor = s.stor := by
  unfold StateLock.releaseLock
  cases hm : s.mem with
  | none => simp [hstor, hne]
  | some memoryLock =>
    by_cases hid : memoryLock.id = lockId
    · simp [hstor, hid, hne]
    · simp [hstor, hid, hne]

/-- Witness for C7: a store owned by token 5, released with token 7. -/
theorem releaseLock_not_owner_witness :
    (StateLock.releaseLock (⟨none, some ⟨5, 0⟩⟩ : StateLock.LockSys) 7).2 = false ∧
      (StateLock.releaseLock (⟨none, some ⟨5, 0⟩⟩ : StateLock.LockSys) 7).1.stor
        = some ⟨5, 0⟩ :=
  releaseLock_not_owner _ 7 ⟨5, 0⟩ rfl (by decide)

namespace AcquireRace

/-
Interleaved semantics of two concurrent acquireLock calls sharing one
in-process memory map and one durable store (stateLock.js lines 22-115).
JavaScript is single threaded, so a call is atomic between its await points;
the await boundaries of acquireLock cut it into these atomic segments:
  start        — the synchronous head: memory-lock check (blocking on a young
                 entry, deleting a stale one) and writing the caller's own
                 memory entry, up to the await of chrome.storage.local.get;
  memSet       — the turn in which the get resolves: staleness decision on the
                 value read, with failure deleting the memory entry, and
                 success evaluating Date.now() for the record it passes to
                 chrome.storage.local.set;
  writePending — the storage write of that set landing;
  finished     — the call has returned (its result recorded).
-/

/-- Control point of one in-flight acquireLock call. -/
inductive Phase where
  | start
  | memSet
  | writePending (ts : Nat)
  | finished (result : Option Nat)
deriving Repr, DecidableEq

/-- One in-flight acquireLock call: its token and its control point. -/
structure CallState where
  id : Nat
  phase : Phase
deriving Repr, DecidableEq

/-- Shared state plus the two racing calls. -/
structure RaceState where
  mem : Option StateLock.LockRec
  stor : Option StateLock.LockRec
  a : CallState
  b : CallState
deriving Repr, DecidableEq

/-- Run the next atomic segment of one call at wall-clock instant `now`. -/
def stepCall (timeout now : Nat) (mem stor : Option StateLock.LockRec)
    (c : CallState) :
    Option StateLock.LockRec × Option StateLock.LockRec × CallState :=
  match c.phase with
  | .start =>
    match mem with
    | some existingLock =>
      if now - existingLock.timestamp < timeout then
        (mem, stor, { c with phase := .finished none })
      else
        (some { id := c.id, timestamp := now }, stor, { c with phase := .memSet })
    | none =>
      (some { id := c.id, timestamp := now }, stor, { c with phase := .memSet })
  | .memSet =>
    match stor with
    | some lockData =>
      if now - lockData.timestamp < timeout then
        (none, stor, { c with phase := .finished none })
      else
        (mem, stor, { c with phase := .writePending now })
    | none => (mem, stor, { c with phase := .writePending now })
  | .writePending ts =>
    (mem, some { id := c.id, timestamp := ts },
      { c with phase := .finished (some c.id) })
  | .finished _ => (mem, stor, c)

/-- A scheduler event: which call runs its next segment (true = call A) and at
which instant. -/
def raceStep (timeout : Nat) (s : RaceState) (e : Bool × Nat) : RaceState :=
  if e.1 then
    let r := stepCall timeout e.2 s.mem s.stor s.a
    { mem := r.1, stor := r.2.1, a := r.2.2, b := s.b }
  else
    let r := stepCall timeout e.2 s.mem s.stor s.b
    { mem := r.1, stor := r.2.1, a := s.a, b := r.2.2 }

/-- Run a whole schedule of interleaved segments. -/
def raceRun (timeout : Nat) (s : RaceState) (sched : List (Bool × Nat)) :
    RaceState :=
  sched.foldl (raceStep timeout) s

/-- Both calls poised to run, no lock held anywhere. -/
def initRace (idA idB : Nat) : RaceState :=
  { mem := none, stor := none,
    a := { id := idA, phase := .start }, b := { id := idB, phase := .start } }

/-- Progress measure of a call through its segments. -/
def phaseRank : Phase → Nat
  | .start => 0
  | .memSet => 1
  | .writePending _ => 2
  | .finished _ => 3

/-- Invariant holding from the moment call A has run its synchronous head at
instant `ta` while the store was empty: A's memory entry stays in place and
the durable record, once written, is A's; A can only finish successfully. -/
def Core (idA ta : Nat) (s : RaceState) : Prop :=
  s.a.id = idA ∧
  s.mem = some { id := idA, timestamp := ta } ∧
  ((s.stor = none ∧
      (s.a.phase = .memSet ∨ ∃ t, s.a.phase = .writePending t)) ∨
    (∃ t, s.stor = some { id := idA, timestamp := t } ∧
      s.a.phase = .finished (some idA)))

theorem coreA_step (timeout t idA ta : Nat) (s : RaceState)
    (hc : Core idA ta s) :
    Core idA ta (raceStep timeout s (true, t)) ∧
      (raceStep timeout s (true, t)).b = s.b ∧
      min 3 (phaseRank s.a.phase + 1)
        ≤ phaseRank (raceStep timeout s (true, t)).a.phase := by
  obtain ⟨hid, hmem, hdisj⟩ := hc
  rcases hdisj with ⟨hstor, hph⟩ | ⟨t0, hstor, hph⟩
  · rcases hph with hph | ⟨t1, hph⟩
    · refine ⟨⟨?_, ?_, ?_⟩, ?_, ?_⟩ <;>
        simp [raceStep, stepCall, hph, hstor, hmem, hid, Core, phaseRank]
    · refine ⟨⟨?_, ?_, ?_⟩, ?_, ?_⟩ <;>
        simp [raceStep, stepCall, hph, hstor, hmem, hid, Core, phaseRank]
  · refine ⟨⟨?_, ?_, ?_⟩, ?_, ?_⟩ <;>
      simp [raceStep, stepCall, hph, hstor, hmem, hid, Core, phaseRank]

theorem raceStep_b_done (timeout t : Nat) (s : RaceState)
    (hb : s.b.phase = .finished none) :
    raceStep timeout s (false, t) = s := by
  cases s with
  | mk mem stor a b =>
    simp only at hb
    simp [raceStep, stepCall, hb]

theorem corePost_run (timeout idA ta : Nat) :
    ∀ (post : List (Bool × Nat)) (s : RaceState),
      Core idA ta s → s.b.phase = .finished none →
      3 ≤ phaseRank s.a.phase + post.countP (fun e => e.1) →
      (raceRun timeout s post).a.phase = .finished (some idA) ∧
        (raceRun timeout s post).b.phase = .finished none
  | [], s, hc, hb, hcount => by
    obtain ⟨hid, hmem, hdisj⟩ := hc
    rcases hdisj with ⟨hstor, hph⟩ | ⟨t0, hstor, hph⟩
    · rcases hph with hph | ⟨t1, hph⟩ <;>
      · rw [hph] at hcount
        simp only [phaseRank, List.countP_nil] at hcount
        omega
    · exact ⟨hph, hb⟩
  | (who, t) :: post, s, hc, hb, hcount => by
    cases who with
    | true =>
      obtain ⟨hc2, hb2, hrank⟩ := coreA_step timeout t idA ta s hc
      have hcount2 : 3 ≤ phaseRank (raceStep timeout s (true, t)).a.phase
          + post.countP (fun e => e.1) := by
        simp [List.countP_cons] at hcount
        omega
      have := corePost_run timeout idA ta post (raceStep timeout s (true, t))
        hc2 (by rw [hb2]; exact hb) hcount2
      simpa [raceRun, List.foldl_cons] using this
    | false =>
      have hstep := raceStep_b_done timeout t s hb
      have hcount2 : 3 ≤ phaseRank s.a.phase + post.countP (fun e => e.1) := by
        simp [List.countP_cons] at hcount
        omega
      have := corePost_run timeout idA ta post s hc hb hcount2
      simpa [raceRun, List.foldl_cons, hstep] using this

theorem corePre_run (timeout idA ta : Nat) :
    ∀ (rest : List (Bool × Nat)) (s : RaceState),
      (∀ e ∈ rest, e.1 = true) →
      Core idA ta s →
      Core idA ta (raceRun timeout s rest) ∧
        (raceRun timeout s rest).b = s.b ∧
        min 3 (phaseRank s.a.phase + rest.length)
          ≤ phaseRank (raceRun timeout s rest).a.phase
  | [], s, _, hc => by
    refine ⟨hc, rfl, ?_⟩
    simp [raceRun]
  | (who, t) :: rest, s, hall, hc => by
    have hwho : who = true := hall (who, t) (List.mem_cons_self _ _)
    subst hwho
    obtain ⟨hc2, hb2, hrank⟩ := coreA_step timeout t idA ta s hc
    have hall2 : ∀ e ∈ rest, e.1 = true := fun e he =>
      hall e (List.mem_cons_of_mem _ he)
    obtain ⟨hc3, hb3, hrank3⟩ :=
      corePre_run timeout idA ta rest (raceStep timeout s (true, t)) hall2 hc2
    refine ⟨?_, ?_, ?_⟩
    · simpa [raceRun, List.foldl_cons] using hc3
    · simp only [raceRun, List.foldl_cons]
      rw [show (rest.foldl (raceStep timeout) (raceStep timeout s (true, t))).b
        = (raceStep timeout s (true, t)).b from hb3, hb2]
    · have h4 : phaseRank (raceRun timeout (raceStep timeout s (true, t)) rest).a.phase
          = phaseRank (raceRun timeout s ((true, t) :: rest)).a.phase := by
        simp [raceRun, List.foldl_cons]
      rw [← h4]
      simp only [List.length_cons]
      omega

theorem coreB_step (timeout idA ta tb : Nat) (s : RaceState)
    (hc : Core idA ta s) (hb : s.b.phase = .start)
    (hage : tb - ta < timeout) :
    raceStep timeout s (false, tb)
      = { s with b := { s.b with phase := .finished none } } := by
  obtain ⟨hid, hmem, _⟩ := hc
  cases s with
  | mk mem stor a b =>
    simp only at hmem hb
    simp [raceStep, stepCall, hb, hmem, hage]

end AcquireRace

/-- C1: two concurrent acquireLock calls against the same in-process cache
and durable store, where the second call starts before the first call's lock
record reaches age timeout, yield exactly one token: the call whose
synchronous head runs first finishes with its token and the other finishes
with none, whatever the interleaving of the remaining segments. -/
theorem acquire_race_mutual_exclusion (timeout idA idB ta tb : Nat)
    (preRest post : List (Bool × Nat))
    (hpre : ∀ e ∈ preRest, e.1 = true)
    (hage : tb - ta < timeout)
    (hcount : 3 ≤ 1 + preRest.length + post.countP (fun e => e.1)) :
    (AcquireRace.raceRun timeout (AcquireRace.initRace idA idB)
        ((true, ta) :: (preRest ++ (false, tb) :: post))).a.phase
      = AcquireRace.Phase.finished (some idA) ∧
    (AcquireRace.raceRun timeout (AcquireRace.initRace idA idB)
        ((true, ta) :: (preRest ++ (false, tb) :: post))).b.phase
      = AcquireRace.Phase.finished none := by
  have hs1 : AcquireRace.raceStep timeout (AcquireRace.initRace idA idB) (true, ta)
      = { mem := some { id := idA, timestamp := ta }, stor := none,
          a := { id := idA, phase := .memSet },
          b := { id := idB, phase := .start } } := by
    simp [AcquireRace.raceStep, AcquireRace.stepCall, AcquireRace.initRace]
  have hcore1 : AcquireRace.Core idA ta
      (AcquireRace.raceStep timeout (AcquireRace.initRace idA idB) (true, ta)) := by
    rw [hs1]
    exact ⟨rfl, rfl, Or.inl ⟨rfl, Or.inl rfl⟩⟩
  obtain ⟨hc2, hb2, hrank2⟩ :=
    AcquireRace.corePre_run timeout idA ta preRest _ hpre hcore1
  have hb2' : (AcquireRace.raceRun timeout
      (AcquireRace.raceStep timeout (AcquireRace.initRace idA idB) (true, ta))
      preRest).b.phase = AcquireRace.Phase.start := by
    rw [hb2, hs1]
  have hs3 := AcquireRace.coreB_step timeout idA ta tb
    (AcquireRace.raceRun timeout
      (AcquireRace.raceStep timeout (AcquireRace.initRace idA idB) (true, ta))
      preRest) hc2 hb2' hage
  have hc3 : AcquireRace.Core idA ta
      (AcquireRace.raceStep timeout
        (AcquireRace.raceRun timeout
          (AcquireRace.raceStep timeout (AcquireRace.initRace idA idB) (true, ta))
          preRest) (false, tb)) := by
    rw [hs3]
    exact ⟨hc2.1, hc2.2.1, hc2.2.2⟩
  have hbphase3 : (AcquireRace.raceStep timeout
      (AcquireRace.raceRun timeout
        (AcquireRace.raceStep timeout (AcquireRace.initRace idA idB) (true, ta))
        preRest) (false, tb)).b.phase = AcquireRace.Phase.finished none := by
    rw [hs3]
  have hrank1 : AcquireRace.phaseRank
      ((AcquireRace.raceStep timeout (AcquireRace.initRace idA idB) (true, ta)).a.phase)
      = 1 := by
    rw [hs1]
    rfl
  have hrank3 : AcquireRace.phaseRank
      ((AcquireRace.raceStep timeout
        (AcquireRace.raceRun timeout
          (AcquireRace.raceStep timeout (AcquireRace.initRace idA idB) (true, ta))
          preRest) (false, tb)).a.phase)
      = AcquireRace.phaseRank
        ((AcquireRace.raceRun timeout
          (AcquireRace.raceStep timeout (AcquireRace.initRace idA idB) (true, ta))
          preRest).a.phase) := by
    rw [hs3]
  have hcount3 : 3 ≤ AcquireRace.phaseRank
      ((AcquireRace.raceStep timeout
        (AcquireRace.raceRun timeout
          (AcquireRace.raceStep timeout (AcquireRace.initRace idA idB) (true, ta))
          preRest) (false, tb)).a.phase) + post.countP (fun e => e.1) := by
    rw [hrank3]
    rw [hrank1] at hrank2
    omega
  obtain ⟨hfa, hfb⟩ :=
    AcquireRace.corePost_run timeout idA ta post _ hc3 hbphase3 hcount3
  have hfold : AcquireRace.raceRun timeout (AcquireRace.initRace idA idB)
      ((true, ta) :: (preRest ++ (false, tb) :: post))
      = AcquireRace.raceRun timeout
        (AcquireRace.raceStep timeout
          (AcquireRace.raceRun timeout
            (AcquireRace.raceStep timeout (AcquireRace.initRace idA idB) (true, ta))
            preRest) (false, tb)) post := by
    simp only [AcquireRace.raceRun, List.foldl_cons, List.foldl_append]
  rw [hfold]
  exact ⟨hfa, hfb⟩

/-- Witness for C1: call A heads at t=0, call B at t=100 with timeout 5000;
A finishes with its token, B with none. -/
theorem acquire_race_mutual_exclusion_witness :
    (AcquireRace.raceRun 5000 (AcquireRace.initRace 1 2)
        ((true, 0) :: ([] ++ (false, 100) :: [(true, 150), (true, 200)]))).a.phase
      = AcquireRace.Phase.finished (some 1) ∧
    (AcquireRace.raceRun 5000 (AcquireRace.initRace 1 2)
        ((true, 0) :: ([] ++ (false, 100) :: [(true, 150), (true, 200)]))).b.phase
      = AcquireRace.Phase.finished none :=
  acquire_race_mutual_exclusion 5000 1 2 0 100 [] [(true, 150), (true, 200)]
    (by intro e he; simp at he) (by decide) (by decide)


namespace NetworkIdle

/-
Embedding of NetworkRequestTracker.waitForNetworkIdle
(src/networkRequestTracker.js lines 77-168).  The interval callback
checkQuietPeriod is modelled tick by tick; time is measured as elapsed
milliseconds since startTime and `counts e` gives the number of tracked
active requests for the tab at elapsed time e.  setInterval is idealized as
firing at e = checkInterval, 2*checkInterval, ...
-/

/-- Options object of waitForNetworkIdle with its destructured defaults. -/
structure IdleOptions where
  timeout : Nat
  quietPeriod : Nat
  checkInterval : Nat
  maxActiveRequests : Nat
deriving Repr, DecidableEq

/-- Modelled from the scope analysis of networkRequestTracker.js lines 122 and
158: the identifier targetUrl is referenced there but no binding of that name
exists in waitForNetworkIdle, in the enclosing class, at module scope or as a
global, so evaluating it raises a ReferenceError; the lookup therefore yields
no value. -/
def targetUrlLookup : Option String := none

/-- Outcome of one run of the interval callback checkQuietPeriod. -/
inductive TickResult where
  | refError
  | resolved
  | timedOutNoReject
  | rejected
  | next (quietStart : Option Nat)
deriving Repr, DecidableEq

/-- Tail of the callback after the five-second progress log: the
quiet-period bookkeeping (lines 126-146) followed by the overall timeout
check (lines 148-163).  On the timeout path the interval is cleared and the
tab state cleaned up, then the logger payload evaluates targetUrl; only if
that lookup succeeded would reject(new Error(...)) on line 162 run. -/
def quietAndTimeoutChecks (opts : IdleOptions) (currentCount e : Nat)
    (quietStart : Option Nat) : TickResult :=
  if currentCount ≤ opts.maxActiveRequests then
    match quietStart with
    | none =>
      if opts.timeout ≤ e then
        match targetUrlLookup with
        | none => .timedOutNoReject
        | some _ => .rejected
      else .next (some e)
    | some qs =>
      if opts.quietPeriod ≤ e - qs then .resolved
      else if opts.timeout ≤ e then
        match targetUrlLookup with
        | none => .timedOutNoReject
        | some _ => .rejected
      else .next (some qs)
  else
    if opts.timeout ≤ e then
      match targetUrlLookup with
      | none => .timedOutNoReject
      | some _ => .rejected
    else .next none

/-- One run of checkQuietPeriod at elapsed time e.  Every five seconds
(elapsedTime % 5000 < checkInterval) the callback first builds a progress-log
payload that evaluates targetUrl; when that lookup fails the ReferenceError
aborts this run of the callback before any quiet-period or timeout check. -/
def checkQuietPeriod (opts : IdleOptions) (counts : Nat → Nat) (e : Nat)
    (quietStart : Option Nat) : TickResult :=
  let currentCount := counts e
  if e % 5000 < opts.checkInterval then
    match targetUrlLookup with
    | none => .refError
    | some _ => quietAndTimeoutChecks opts currentCount e quietStart
  else
    quietAndTimeoutChecks opts currentCount e quietStart

/-- How the promise returned by waitForNetworkIdle settles. -/
inductive IdleOutcome where
  | resolved (tick : Nat)
  | rejected (tick : Nat)
  | neverSettles
deriving Repr, DecidableEq

/-- Drive the interval from tick k onwards; fuel bounds the number of ticks
examined (none = undetermined within the fuel).  A refError tick leaves the
interval installed, so polling continues; the timedOutNoReject path cleared
the interval and never called reject, so the promise never settles. -/
def runIdle (opts : IdleOptions) (counts : Nat → Nat) :
    Nat → Nat → Option Nat → Option IdleOutcome
  | 0, _, _ => none
  | fuel + 1, k, quietStart =>
    match checkQuietPeriod opts counts (k * opts.checkInterval) quietStart with
    | .resolved => some (.resolved k)
    | .rejected => some (.rejected k)
    | .timedOutNoReject => some .neverSettles
    | .refError => runIdle opts counts fuel (k + 1) quietStart
    | .next qs => runIdle opts counts fuel (k + 1) qs

/-- Entry of waitForNetworkIdle (lines 86-96): the guard on targetUrls
rejects the call before the polling promise is even constructed. -/
def waitForNetworkIdle (targetUrls : List (Nat × String)) (tabId : Nat)
    (opts : IdleOptions) (counts : Nat → Nat) (fuel : Nat) :
    Except String (Option IdleOutcome) :=
  if (targetUrls.lookup tabId).isSome then
    Except.ok (runIdle opts counts fuel 1 none)
  else
    Except.error "No target URL set for tab"

end NetworkIdle

/-- C2 (code bug report): with the waitForNetworkIdle options used by the
background script scaled down (timeout 300ms, quietPeriod 500ms,
checkInterval 100ms, maxActiveRequests 2) and a page that keeps three
same-origin requests in flight forever, the claim demands rejection with an
idle-timeout error at or after the timeout; the code instead reaches the
timeout branch, clears the interval, and then throws a ReferenceError while
evaluating the undeclared identifier targetUrl for the log payload, so
reject is never called and the promise never settles. -/
theorem waitForNetworkIdle_timeout_never_rejects :
    NetworkIdle.waitForNetworkIdle [(1, "https://example.com")] 1
        { timeout := 300, quietPeriod := 500, checkInterval := 100,
          maxActiveRequests := 2 } (fun _ => 3) 10
      = Except.ok (some NetworkIdle.IdleOutcome.neverSettles) ∧
    NetworkIdle.targetUrlLookup = none := ⟨rfl, rfl⟩

/-- C10: calling waitForNetworkIdle on a tab with no recorded target URL
fails immediately with the error message No target URL set for tab, before
any polling of the active-request count begins. -/
theorem waitForNetworkIdle_no_target_url (targetUrls : List (Nat × String))
    (tabId : Nat) (opts : NetworkIdle.IdleOptions) (counts : Nat → Nat)
    (fuel : Nat) (h : targetUrls.lookup tabId = none) :
    NetworkIdle.waitForNetworkIdle targetUrls tabId opts counts fuel
      = Except.error "No target URL set for tab" := by
  simp [NetworkIdle.waitForNetworkIdle, h]

/-- Witness for C10: an empty tracker and tab 1. -/
theorem waitForNetworkIdle_no_target_url_witness :
    NetworkIdle.waitForNetworkIdle [] 1
        { timeout := 45000, quietPeriod := 500, checkInterval := 100,
          maxActiveRequests := 2 } (fun _ => 0) 5
      = Except.error "No target URL set for tab" :=
  waitForNetworkIdle_no_target_url [] 1 _ (fun _ => 0) 5 rfl

namespace Scheduler

/-
Embedding of pollServer from the background script version that wraps
processUrl in its own try/catch (src/unnamed/part_002 lines 1001-1096).
The effects of one poll iteration are supplied as an oracle environment:
whether tryAcquireLock yielded a token, how the fetchWithTimeout of
{controlUrl}/get_url turned out, how processUrl turned out when it was
dispatched, and whether the report_error POST was delivered.
-/

/-- Result of response.json() on a non-204, ok response. -/
inductive JsonOutcome where
  | parseFailure
  | payload (url : Option String) (captureScreenshot : Bool)
deriving Repr, DecidableEq

/-- How the awaited fetchWithTimeout call turned out: aborted by its timeout
controller (an AbortError), thrown with some other transport error, or
resolved with a status code and body. -/
inductive FetchOutcome where
  | abortError
  | thrown (msg : String)
  | response (status : Nat) (body : JsonOutcome)
deriving Repr, DecidableEq

/-- Oracle environment for one pollServer iteration. -/
structure PollEnv where
  lockAcquired : Bool
  fetched : FetchOutcome
  processOutcome : Except String Unit
  reportDelivered : Bool
deriving Repr

/-- The response.ok predicate of the Fetch API: status in the 200-299 range. -/
def responseOk (status : Nat) : Bool := 200 ≤ status && status ≤ 299

/-- pollServer: returns true to continue the continuous polling loop and
false to stop it.  A missing lock token returns false at once; a 204 response
continues; a non-ok status or a JSON parse failure throws, is caught by the
outer catch as a non-AbortError and returns false; a payload with a url
dispatches processUrl inside its own try/catch, whose failure is logged and
reported but still returns true; an AbortError on the fetch returns true;
any other thrown fetch error returns false.  The finally block always
releases the polling lock. -/
def pollServer (env : PollEnv) : Bool :=
  if !env.lockAcquired then
    false
  else
    match env.fetched with
    | .abortError => true
    | .thrown _ => false
    | .response status body =>
      if status = 204 then true
      else if !responseOk status then false
      else
        match body with
        | .parseFailure => false
        | .payload url _ =>
          match url with
          | some _ =>
            match env.processOutcome with
            | .ok _ => true
            | .error _ => true
          | none => true

/-- Original C3 reading of when the loop may stop: only a non-timeout
error thrown by the poll fetch itself. -/
def isNonTimeoutFetchError : FetchOutcome → Bool
  | .thrown _ => true
  | _ => false

/-- Concrete iteration on which the polling lock is unavailable; the fetch
oracle holds an innocuous 204 response, which is never consulted because
pollServer returns before fetching. -/
def lockBlockedEnv : PollEnv :=
  { lockAcquired := false,
    fetched := .response 204 (.payload none false),
    processOutcome := Except.ok (),
    reportDelivered := true }

end Scheduler

/-- C3 counterexample: the claim says only a non-timeout transport-level
error on the poll fetch makes the poll step return stop, but when the
polling lock cannot be acquired pollServer also returns false — which
startContinuousPolling treats as stop — with no fetch error at all. -/
theorem pollServer_stop_counterexample :
    Scheduler.pollServer Scheduler.lockBlockedEnv = false ∧
      Scheduler.isNonTimeoutFetchError Scheduler.lockBlockedEnv.fetched = false :=
  ⟨rfl, rfl⟩

/-- C3 (amended): failures of processUrl on a received job payload are caught
inside the poll step, which still returns continue whatever the job outcome;
and the poll step returns stop exactly when the polling lock could not be
acquired, or the poll fetch threw a non-timeout transport error, or the
response had a non-204 non-ok status, or its body failed to parse. -/
theorem pollServer_stop_characterization (env : Scheduler.PollEnv) :
    (Scheduler.pollServer env
        = Scheduler.pollServer { env with processOutcome := Except.ok () }) ∧
    (Scheduler.pollServer env = false ↔
      env.lockAcquired = false ∨
      (∃ msg, env.fetched = Scheduler.FetchOutcome.thrown msg) ∨
      (∃ status body, env.fetched = Scheduler.FetchOutcome.response status body ∧
        status ≠ 204 ∧ Scheduler.responseOk status = false) ∨
      (∃ status, env.fetched
          = Scheduler.FetchOutcome.response status Scheduler.JsonOutcome.parseFailure ∧
        status ≠ 204 ∧ Scheduler.responseOk status = true)) := by
  obtain ⟨lock, fetched, processOutcome, reportDelivered⟩ := env
  constructor
  · cases lock with
    | false => rfl
    | true =>
      cases fetched with
      | abortError => rfl
      | thrown msg => rfl
      | response status body =>
        by_cases h204 : status = 204
        · simp [Scheduler.pollServer, h204]
        · by_cases hok : Scheduler.responseOk status
          · cases body with
            | parseFailure => simp [Scheduler.pollServer, h204, hok]
            | payload url cs =>
              cases url with
              | none => simp [Scheduler.pollServer, h204, hok]
              | some u =>
                cases processOutcome with
                | ok _ => simp [Scheduler.pollServer, h204, hok]
                | error _ => simp [Scheduler.pollServer, h204, hok]
          · simp [Scheduler.pollServer, h204, hok]
  · cases lock with
    | false => simp [Scheduler.pollServer]
    | true =>
      cases fetched with
      | abortError => simp [Scheduler.pollServer]
      | thrown msg => simp [Scheduler.pollServer]
      | response status body =>
        by_cases h204 : status = 204
        · subst h204
          simp [Scheduler.pollServer, Scheduler.responseOk]
        · by_cases hok : Scheduler.responseOk status
          · cases body with
            | parseFailure =>
              simp [Scheduler.pollServer, h204, hok]
            | payload url cs =>
              cases url with
              | none =>
                simp [Scheduler.pollServer, h204, hok]
              | some u =>
                cases processOutcome with
                | ok _ => simp [Scheduler.pollServer, h204, hok]
                | error e => simp [Scheduler.pollServer, h204, hok]
          · constructor
            · intro _
              exact Or.inr (Or.inr (Or.inl ⟨status, body, rfl, h204, by simpa using hok⟩))
            · intro _
              simp [Scheduler.pollServer, h204, hok]

/-- Witness for the amended C3 statement: on the lock-blocked iteration the
characterization yields stop, and on a delivered job whose processUrl fails
the poll step still continues. -/
theorem pollServer_stop_characterization_witness :
    Scheduler.pollServer Scheduler.lockBlockedEnv = false ∧
      Scheduler.pollServer
        { lockAcquired := true,
          fetched := Scheduler.FetchOutcome.response 200
            (Scheduler.JsonOutcome.payload (some "https://example.com") true),
          processOutcome := Except.error "Processing timeout after 480 seconds",
          reportDelivered := false } = true :=
  ⟨(pollServer_stop_characterization Scheduler.lockBlockedEnv).2.mpr (Or.inl rfl),
    by
      have h := (pollServer_stop_characterization
        { lockAcquired := true,
          fetched := Scheduler.FetchOutcome.response 200
            (Scheduler.JsonOutcome.payload (some "https://example.com") true),
          processOutcome := Except.error "Processing timeout after 480 seconds",
          reportDelivered := false }).1
      rw [h]
      rfl⟩

namespace Executor

/-
Embedding of processUrl from the background script version with the
Promise.race deadline (src/unnamed/part_002 lines 759-915).  The pipeline
closure (create tab, set target url, wait for load and network idle, extract,
settle, capture, submit) is supplied as an oracle: its eventual outcome and
the elapsed time at which its promise settles, plus whether chrome.tabs.create
had resolved (tab non-null) by the time the race was decided.
-/

/-- The record written under the state_processing key by
stateLock.setState at the start of processUrl. -/
structure ProcState where
  url : String
  processId : Nat
  startTime : Nat
deriving Repr, DecidableEq

/-- The slice of chrome.storage.local owned by the executor: the value under
the state_processing key and the value under the state_idle key (the source
stores undefined there, carried as Unit). -/
structure StateStore where
  stateProcessing : Option ProcState
  stateIdle : Option Unit
deriving Repr, DecidableEq

/-- Submitted content as assembled by the pipeline closure. -/
structure ContentData where
  url : String
  transformedUrl : String
  title : String
deriving Repr, DecidableEq

/-- Eventual outcome of the pipeline closure inside Promise.race. -/
inductive PipelineOutcome where
  | success (content : ContentData)
  | failure (msg : String)
deriving Repr, DecidableEq

/-- Oracle environment for one processUrl run. -/
structure ProcessEnv where
  url : String
  processId : Nat
  startTime : Nat
  pipelineTime : Nat
  outcome : PipelineOutcome
  tabCreated : Bool
  reportDelivered : Bool
deriving Repr, DecidableEq

/-- Observable result of one processUrl run. -/
structure ProcessRun where
  result : Except String ContentData
  tabRemoved : Bool
  reportAttempted : Bool
  finalStore : StateStore
  cleanupRuns : Nat
deriving Repr

/-- The 8-minute hard ceiling of the race (PROCESSING_TIMEOUT). -/
def PROCESSING_TIMEOUT : Nat := 480000

/-- processUrl: write the processing record, race the pipeline closure
against the deadline promise (the pipeline wins when it settles strictly
before the deadline fires), on any error attempt a best-effort
report_error POST and rethrow, and in the finally block close the tab when
one was created, call stateLock.setState with the single argument idle —
which writes the state_idle key and leaves state_processing in place — and
persist isProcessing = false. -/
def processUrl (store : StateStore) (env : ProcessEnv) : ProcessRun :=
  let procRecord : ProcState :=
    { url := env.url, processId := env.processId, startTime := env.startTime }
  let store1 : StateStore := { store with stateProcessing := some procRecord }
  let raced : Except String ContentData :=
    if env.pipelineTime < PROCESSING_TIMEOUT then
      match env.outcome with
      | .success contentData => Except.ok contentData
      | .failure msg => Except.error msg
    else
      Except.error ("Processing timeout after "
        ++ toString (PROCESSING_TIMEOUT / 1000) ++ " seconds")
  let reportAttempted := match raced with
    | .ok _ => false
    | .error _ => true
  let store2 : StateStore := { store1 with stateIdle := some () }
  { result := raced,
    tabRemoved := env.tabCreated,
    reportAttempted := reportAttempted,
    finalStore := store2,
    cleanupRuns := 1 }

end Executor

/-- C4: processUrl races the whole pipeline against a single hard 8-minute
deadline; whichever settles first determines the outcome (the pipeline's
result or error when it settles before 480000 ms, the timeout error
otherwise), and when the deadline wins the job fails with the timeout error
while the cleanup still runs exactly once, closing the tab when one was
created and executing the state-reset step. -/
theorem processUrl_deadline_race (store : Executor.StateStore)
    (env : Executor.ProcessEnv) :
    (Executor.PROCESSING_TIMEOUT ≤ env.pipelineTime →
      (Executor.processUrl store env).result
          = Except.error "Processing timeout after 480 seconds" ∧
        (Executor.processUrl store env).tabRemoved = env.tabCreated ∧
        (Executor.processUrl store env).cleanupRuns = 1 ∧
        (Executor.processUrl store env).reportAttempted = true) ∧
    (env.pipelineTime < Executor.PROCESSING_TIMEOUT →
      (Executor.processUrl store env).result
          = (match env.outcome with
            | Executor.PipelineOutcome.success c => Except.ok c
            | Executor.PipelineOutcome.failure msg => Except.error msg) ∧
        (Executor.processUrl store env).tabRemoved = env.tabCreated ∧
        (Executor.processUrl store env).cleanupRuns = 1) := by
  constructor
  · intro h
    have hlt : ¬ env.pipelineTime < Executor.PROCESSING_TIMEOUT := by omega
    refine ⟨?_, rfl, rfl, ?_⟩ <;> simp [Executor.processUrl, hlt] <;> rfl
  · intro h
    refine ⟨?_, rfl, rfl⟩
    simp [Executor.processUrl, h]

/-- Witness for C4: a pipeline that would only settle at 480001 ms loses the
race, and a pipeline failing at 1000 ms wins it with its own error. -/
theorem processUrl_deadline_race_witness :
    ((Executor.processUrl ⟨none, none⟩
        { url := "https://example.com", processId := 1, startTime := 0,
          pipelineTime := 480001, outcome := Executor.PipelineOutcome.failure "late",
          tabCreated := true, reportDelivered := true }).result
      = Except.error "Processing timeout after 480 seconds" ∧
      (Executor.processUrl ⟨none, none⟩
        { url := "https://example.com", processId := 1, startTime := 0,
          pipelineTime := 480001, outcome := Executor.PipelineOutcome.failure "late",
          tabCreated := true, reportDelivered := true }).tabRemoved = true) ∧
    (Executor.processUrl ⟨none, none⟩
        { url := "https://example.com", processId := 1, startTime := 0,
          pipelineTime := 1000, outcome := Executor.PipelineOutcome.failure "boom",
          tabCreated := true, reportDelivered := true }).result
      = Except.error "boom" := by
  refine ⟨⟨?_, ?_⟩, ?_⟩
  · exact ((processUrl_deadline_race ⟨none, none⟩ _).1 (by decide)).1
  · exact (((processUrl_deadline_race ⟨none, none⟩ _).1 (by decide)).2).1
  · exact ((processUrl_deadline_race ⟨none, none⟩
      { url := "https://example.com", processId := 1, startTime := 0,
        pipelineTime := 1000, outcome := Executor.PipelineOutcome.failure "boom",
        tabCreated := true, reportDelivered := true }).2 (by decide)).1

/-- C5 (code bug report): a job whose pipeline throws during extraction at
60000 ms still gets its tab disposed and its cleanup block runs exactly once,
but the persisted processing state is not cleared back to idle: the finally
block calls setState with the single argument idle, which writes the separate
state_idle key, so the state_processing record written at job start is still
in the store when processUrl finishes. -/
theorem processUrl_leaves_processing_state :
    (Executor.processUrl ⟨none, none⟩
        { url := "https://example.com", processId := 1, startTime := 0,
          pipelineTime := 60000,
          outcome := Executor.PipelineOutcome.failure "extraction failed",
          tabCreated := true, reportDelivered := true }).tabRemoved = true ∧
    (Executor.processUrl ⟨none, none⟩
        { url := "https://example.com", processId := 1, startTime := 0,
          pipelineTime := 60000,
          outcome := Executor.PipelineOutcome.failure "extraction failed",
          tabCreated := true, reportDelivered := true }).cleanupRuns = 1 ∧
    (Executor.processUrl ⟨none, none⟩
        { url := "https://example.com", processId := 1, startTime := 0,
          pipelineTime := 60000,
          outcome := Executor.PipelineOutcome.failure "extraction failed",
          tabCreated := true, reportDelivered := true }).finalStore.stateProcessing
      = some { url := "https://example.com", processId := 1, startTime := 0 } :=
  ⟨rfl, rfl, rfl⟩

namespace Capture

/-
Embedding of the content-script captureAndScroll (src/unnamed/part_000 lines
9-50), the version that computes the termination flag before issuing each
capture.  scrollHeight and clientHeight come from document.documentElement.
Each captured dataUrl is recorded as a Tile carrying the capturedHeight at
the moment the capture was issued and the isLastCapture flag computed just
before it; fuel bounds the recursion depth (none = fuel exhausted).
-/

/-- One captured tile: the pre-capture capturedHeight and the pre-capture
termination flag. -/
structure Tile where
  heightBefore : Nat
  isLastCapture : Bool
deriving Repr, DecidableEq

/-- captureAndScroll: check whether this capture reaches the end BEFORE
capturing (capturedHeight + scrollAmount >= scrollHeight with scrollAmount =
clientHeight), always capture the current view, advance capturedHeight, send
the collected images when the flag was set, otherwise scroll and recurse. -/
def captureAndScroll (scrollHeight clientHeight : Nat) :
    Nat → Nat → List Tile → Option (List Tile)
  | 0, _, _ => none
  | fuel + 1, capturedHeight, capturedImages =>
    let isLastCapture := decide (scrollHeight ≤ capturedHeight + clientHeight)
    let capturedImages2 := capturedImages ++ [⟨capturedHeight, isLastCapture⟩]
    let capturedHeight2 := capturedHeight + clientHeight
    if isLastCapture then some capturedImages2
    else captureAndScroll scrollHeight clientHeight fuel capturedHeight2 capturedImages2

theorem captureAndScroll_append (scrollHeight clientHeight : Nat) :
    ∀ (fuel capturedHeight : Nat) (acc : List Tile),
      captureAndScroll scrollHeight clientHeight fuel capturedHeight acc
        = (captureAndScroll scrollHeight clientHeight fuel capturedHeight []).map
            (fun tiles => acc ++ tiles)
  | 0, _, _ => rfl
  | fuel + 1, ch, acc => by
    by_cases hlast : scrollHeight ≤ ch + clientHeight
    · simp [captureAndScroll, hlast]
    · have hd : decide (scrollHeight ≤ ch + clientHeight) = false :=
        decide_eq_false hlast
      simp only [captureAndScroll, hd, Bool.false_eq_true, ite_false,
        List.nil_append]
      rw [captureAndScroll_append scrollHeight clientHeight fuel
          (ch + clientHeight) (acc ++ [(⟨ch, false⟩ : Tile)]),
        captureAndScroll_append scrollHeight clientHeight fuel
          (ch + clientHeight) [(⟨ch, false⟩ : Tile)]]
      cases captureAndScroll scrollHeight clientHeight fuel (ch + clientHeight) [] with
      | none => rfl
      | some tiles => simp

theorem captureAndScroll_spec (scrollHeight clientHeight : Nat)
    (hv : 0 < clientHeight) :
    ∀ (fuel capturedHeight : Nat),
      1 ≤ fuel →
      scrollHeight ≤ capturedHeight + fuel * clientHeight →
      ∃ (front : List Tile) (lastTile : Tile),
        captureAndScroll scrollHeight clientHeight fuel capturedHeight []
            = some (front ++ [lastTile]) ∧
          lastTile.isLastCapture = true ∧
          (∀ t ∈ front, t.isLastCapture = false) ∧
          (∀ t ∈ front ++ [lastTile],
            t.isLastCapture = decide (scrollHeight ≤ t.heightBefore + clientHeight))
  | 0, ch, hfuel, _ => by omega
  | fuel + 1, ch, _, hreach => by
    by_cases hlast : scrollHeight ≤ ch + clientHeight
    · refine ⟨[], ⟨ch, true⟩, ?_, rfl, ?_, ?_⟩
      · simp [captureAndScroll, hlast]
      · intro t ht
        simp at ht
      · intro t ht
        simp at ht
        subst ht
        simp [hlast]
    · have hfuel : 1 ≤ fuel := by
        rcases Nat.eq_zero_or_pos fuel with h0 | h1
        · subst h0
          omega
        · exact h1
      have hreach2 : scrollHeight ≤ (ch + clientHeight) + fuel * clientHeight := by
        rw [Nat.succ_mul] at hreach
        omega
      obtain ⟨front, lastTile, hrun, hlastFlag, hfront, hflags⟩ :=
        captureAndScroll_spec scrollHeight clientHeight hv fuel
          (ch + clientHeight) hfuel hreach2
      refine ⟨⟨ch, false⟩ :: front, lastTile, ?_, hlastFlag, ?_, ?_⟩
      · simp only [captureAndScroll, decide_eq_false hlast, List.nil_append,
          Bool.false_eq_true, ite_false]
        rw [captureAndScroll_append scrollHeight clientHeight fuel
          (ch + clientHeight) [⟨ch, false⟩], hrun]
        simp
      · intro t ht
        rcases List.mem_cons.mp ht with h | h
        · subst h
          rfl
        · exact hfront t h
      · intro t ht
        rcases List.mem_cons.mp ht with h | h
        · subst h
          simp [hlast]
        · exact hflags t h

end Capture

/-- C8: for a page of height 2500 and viewport 1000, the capture loop takes
exactly three tiles, the first two flagged not-last and the third flagged
last by the pre-capture check 2000 + 1000 >= 2500, and the loop stops right
after that tile; in general (positive viewport, enough fuel to reach the
bottom) the run terminates, the recorded flag of every tile equals the
pre-capture check at that tile's starting height, the final tile is the only
one flagged last, and no tile follows it. -/
theorem captureAndScroll_three_tiles :
    Capture.captureAndScroll 2500 1000 3 0 []
        = some [⟨0, false⟩, ⟨1000, false⟩, ⟨2000, true⟩] ∧
    (∀ (scrollHeight clientHeight fuel capturedHeight : Nat),
      0 < clientHeight → 1 ≤ fuel →
      scrollHeight ≤ capturedHeight + fuel * clientHeight →
      ∃ (front : List Capture.Tile) (lastTile : Capture.Tile),
        Capture.captureAndScroll scrollHeight clientHeight fuel capturedHeight []
            = some (front ++ [lastTile]) ∧
          lastTile.isLastCapture = true ∧
          (∀ t ∈ front, t.isLastCapture = false) ∧
          (∀ t ∈ front ++ [lastTile],
            t.isLastCapture
              = decide (scrollHeight ≤ t.heightBefore + clientHeight))) := by
  constructor
  · rfl
  · intro scrollHeight clientHeight fuel capturedHeight hv hfuel hreach
    exact Capture.captureAndScroll_spec scrollHeight clientHeight hv fuel
      capturedHeight hfuel hreach

/-- Witness for C8: the 2500/1000 page with fuel 3 discharges the general
part's hypotheses, and the concrete run is evaluated. -/
theorem captureAndScroll_three_tiles_witness :
    Capture.captureAndScroll 2500 1000 3 0 []
        = some [⟨0, false⟩, ⟨1000, false⟩, ⟨2000, true⟩] ∧
    ∃ (front : List Capture.Tile) (lastTile : Capture.Tile),
      Capture.captureAndScroll 2500 1000 3 0 [] = some (front ++ [lastTile]) ∧
        lastTile.isLastCapture = true := by
  refine ⟨captureAndScroll_three_tiles.1, ?_⟩
  obtain ⟨front, lastTile, hrun, hflag, -, -⟩ :=
    captureAndScroll_three_tiles.2 2500 1000 3 0 (by decide) (by decide) (by decide)
  exact ⟨front, lastTile, hrun, hflag⟩

namespace Stitch

/-
Embedding of ScreenshotCapture.captureFullPage
(src/backgroundScreenshotHandler.js lines 31-93): given the ordered dataUrl
tiles returned by the content script (carried here as bitmaps with their
decoded dimensions), allocate an OffscreenCanvas sized from the first tile,
draw each tile at a vertical offset advancing by the first tile's height,
and encode the composed canvas.  An empty tile list throws.
-/

/-- A decoded tile image (the ImageBitmap of one captured dataUrl). -/
structure Bitmap where
  width : Nat
  height : Nat
deriving Repr, DecidableEq

/-- One ctx.drawImage(bitmap, 0, yOffset) call. -/
structure Draw where
  bitmap : Bitmap
  yOffset : Nat
deriving Repr, DecidableEq

/-- The composed canvas: its allocated dimensions and the draw calls made
into it, in order. -/
structure Canvas where
  width : Nat
  height : Nat
  draws : List Draw
deriving Repr, DecidableEq

/-- The draw loop: yOffset starts at 0 and advances by firstBitmap.height
after every tile. -/
def drawImages (firstHeight : Nat) : List Bitmap → Nat → List Draw
  | [], _ => []
  | bitmap :: rest, yOffset =>
    ⟨bitmap, yOffset⟩ :: drawImages firstHeight rest (yOffset + firstHeight)

/-- captureFullPage: empty input throws No images captured; otherwise the
canvas is sized firstBitmap.width by firstBitmap.height * images.length and
every image is drawn in order by the loop above. -/
def captureFullPage (images : List Bitmap) : Except String Canvas :=
  match images with
  | [] => Except.error "No images captured"
  | firstBitmap :: rest =>
    Except.ok
      { width := firstBitmap.width,
        height := firstBitmap.height * (firstBitmap :: rest).length,
        draws := drawImages firstBitmap.height (firstBitmap :: rest) 0 }

theorem drawImages_eq_mapIdx (firstHeight : Nat) :
    ∀ (l : List Bitmap) (yOffset : Nat),
      drawImages firstHeight l yOffset
        = l.mapIdx (fun i b => ⟨b, yOffset + i * firstHeight⟩)
  | [], _ => by simp [drawImages]
  | bitmap :: rest, yOffset => by
    rw [drawImages, drawImages_eq_mapIdx firstHeight rest (yOffset + firstHeight),
      List.mapIdx_cons]
    have hfun : (fun i b => (⟨b, yOffset + firstHeight + i * firstHeight⟩ : Draw))
        = (fun i b => (⟨b, yOffset + (i + 1) * firstHeight⟩ : Draw)) := by
      funext i b
      congr 1
      ring
    rw [hfun]
    simp

end Stitch

/-- C9: for every non-empty tile list, the composed output canvas has width
equal to the first tile's width, height equal to the first tile's height
times the number of tiles, and tile i is drawn at vertical offset i times the
first tile's height. -/
theorem captureFullPage_composition (firstBitmap : Stitch.Bitmap)
    (rest : List Stitch.Bitmap) :
    Stitch.captureFullPage (firstBitmap :: rest)
      = Except.ok
        { width := firstBitmap.width,
          height := firstBitmap.height * (firstBitmap :: rest).length,
          draws := (firstBitmap :: rest).mapIdx
            (fun i b => ⟨b, i * firstBitmap.height⟩) } := by
  rw [Stitch.captureFullPage]
  congr 1
  rw [Stitch.drawImages_eq_mapIdx firstBitmap.height (firstBitmap :: rest) 0]
  have hfun : (fun i b => (⟨b, 0 + i * firstBitmap.height⟩ : Stitch.Draw))
      = (fun i b => (⟨b, i * firstBitmap.height⟩ : Stitch.Draw)) := by
    funext i b
    congr 1
    omega
  rw [hfun]
